import Mathlib

/-!
Verification of the docx-corpus scrape/extract pipeline.

Byte buffers (`Uint8Array`) are modelled as `List Nat` with every entry a
byte value.  JavaScript strings that are only ever searched for ASCII
needles are handled at the byte level: decoding bytes with
`TextDecoder("utf-8", { fatal: false })` maps ASCII bytes to themselves,
maps every non-ASCII sequence (valid or replaced) to code units ≥ 0x80,
and never produces an ASCII code unit from a non-ASCII byte, so an ASCII
needle occurs in the decoded string exactly when its byte rendering
occurs in the buffer.
-/

namespace DocxCorpus

/-- ASCII bytes of a Lean string literal (all needles used are ASCII). -/
def asciiBytes (s : String) : List Nat := s.data.map Char.toNat

/-- Source: `src/packages/extractor/processor.ts`: `const ZIP_MAGIC = [0x50, 0x4b, 0x03, 0x04]`. -/
def ZIP_MAGIC : List Nat := [0x50, 0x4b, 0x03, 0x04]

/-- Source: `hasZipMagic` (processor.ts): length guard, then byte-wise comparison of
the first four bytes, i.e. `ZIP_MAGIC` is a prefix. -/
def hasZipMagic (data : List Nat) : Bool :=
  if data.length < ZIP_MAGIC.length then false
  else decide (ZIP_MAGIC <+: data)

/-- Source: `text.includes(needle)` for an ASCII needle over the decoded buffer:
byte-substring occurrence (see the header comment). -/
def includesBytes (data needle : List Nat) : Bool := decide (needle <:+: data)

/-- Source: `ValidationResult` (processor.ts): `{ isValid, error? }`. -/
structure ValidationResult where
  isValid : Bool
  error : Option String
deriving Repr, DecidableEq

def ctNeedle : List Nat := asciiBytes "[Content_Types].xml"
def wordDocXmlNeedle : List Nat := asciiBytes "word/document.xml"
def wordDocNeedle : List Nat := asciiBytes "word/document"

/-- Source: `validateDocx` (processor.ts): size, ZIP magic, `[Content_Types].xml`,
then `word/document.xml` / `word/document`, in that order. -/
def validateDocx (data : List Nat) : ValidationResult :=
  if data.length < 100 then
    ⟨false, some "File too small to be valid docx"⟩
  else if !hasZipMagic data then
    ⟨false, some "Not a valid ZIP file (wrong magic bytes)"⟩
  else if !includesBytes data ctNeedle then
    ⟨false, some "Missing [Content_Types].xml - not a valid Office document"⟩
  else if !includesBytes data wordDocXmlNeedle && !includesBytes data wordDocNeedle then
    ⟨false, some "Missing word/document.xml - not a valid Word document"⟩
  else
    ⟨true, none⟩

lemma hasZipMagic_iff (data : List Nat) : hasZipMagic data = true ↔ ZIP_MAGIC <+: data := by
  unfold hasZipMagic
  by_cases h : data.length < ZIP_MAGIC.length
  · simp only [h, if_true]
    constructor
    · intro hfalse; cases hfalse
    · intro hpre
      exact absurd (hpre.length_le) (by omega)
  · simp [h]

/-- C1: `validateDocx(p)` is ok exactly when `p` has ≥ 100 bytes, starts with
the ZIP magic, contains `[Content_Types].xml`, and contains
`word/document.xml` or `word/document`; the checks run in that order and each
failure yields its own distinct reason string. -/
theorem c1_validateDocx_characterization (data : List Nat) :
    ((validateDocx data).isValid = true ↔
      (100 ≤ data.length ∧ ZIP_MAGIC <+: data ∧ ctNeedle <:+: data ∧
        (wordDocXmlNeedle <:+: data ∨ wordDocNeedle <:+: data))) ∧
    (validateDocx data).error =
      (if data.length < 100 then some "File too small to be valid docx"
       else if ¬ ZIP_MAGIC <+: data then some "Not a valid ZIP file (wrong magic bytes)"
       else if ¬ ctNeedle <:+: data then
         some "Missing [Content_Types].xml - not a valid Office document"
       else if ¬ (wordDocXmlNeedle <:+: data ∨ wordDocNeedle <:+: data) then
         some "Missing word/document.xml - not a valid Word document"
       else none) := by
  by_cases h1 : data.length < 100
  · have h1' : ¬ 100 ≤ data.length := by omega
    simp [validateDocx, h1, h1']
  · have h1' : 100 ≤ data.length := by omega
    by_cases h2 : ZIP_MAGIC <+: data
    · have hz : hasZipMagic data = true := (hasZipMagic_iff data).mpr h2
      by_cases h3 : ctNeedle <:+: data
      · by_cases h4 : wordDocXmlNeedle <:+: data ∨ wordDocNeedle <:+: data
        · simp [validateDocx, includesBytes, h1, h1', h2, h3, h4, hz]
          rcases h4 with h4 | h4 <;> simp [h4]
        · push_neg at h4
          simp [validateDocx, includesBytes, h1, h2, h3, h4.1, h4.2, hz]
      · simp [validateDocx, includesBytes, h1, h2, h3, hz]
    · have hz : hasZipMagic data = false := by
        cases hh : hasZipMagic data
        · rfl
        · exact absurd ((hasZipMagic_iff data).mp hh) h2
      simp [validateDocx, h1, h2, hz]

/-!
Adaptive token-bucket rate limiter (`createRateLimiter` in the scraper's
`rate-limiter.ts`).  Closure state is a record; `Date.now()` timestamps and
token counts are rationals (milliseconds).  `acquire` is async: the model
returns the post state together with the completion timestamp (entry time on
the fast path, entry time plus the computed wait on the slow path).
-/

/-- Configuration captured by the `createRateLimiter` closure. -/
structure RLConfig where
  initialRps : ℚ
  minRps : ℚ
  maxRps : ℚ
  backoffFactor : ℚ := 4/5
  recoveryFactor : ℚ := 21/20
  successStreakThreshold : Nat := 100
deriving Repr, DecidableEq

/-- Mutable closure state: `currentRps`, `tokens`, `lastRefill`,
`successStreak`, `successCount`, `errorCount`. -/
structure RLState where
  currentRps : ℚ
  tokens : ℚ
  lastRefill : ℚ
  successStreak : Nat
  successCount : Nat
  errorCount : Nat
deriving Repr, DecidableEq

/-- Initial closure state: `currentRps = initialRps`, `tokens = currentRps`,
`lastRefill = Date.now()`. -/
def rlInit (cfg : RLConfig) (now : ℚ) : RLState :=
  ⟨cfg.initialRps, cfg.initialRps, now, 0, 0, 0⟩

/-- Source: `refillTokens()`: `tokens = min(currentRps, tokens + (elapsed/1000)*currentRps)`,
`lastRefill = now`. -/
def refillTokens (s : RLState) (now : ℚ) : RLState :=
  { s with
    tokens := min s.currentRps (s.tokens + ((now - s.lastRefill) / 1000) * s.currentRps)
    lastRefill := now }

/-- Source: `acquire()`: refill; if a token is available, take it and return at once;
otherwise wait `(1 - tokens)/currentRps * 1000` ms and then set `tokens = 0`
(the stored `lastRefill` is not advanced during the wait).  Result: post
state and completion timestamp. -/
def acquire (s : RLState) (now : ℚ) : RLState × ℚ :=
  let s1 := refillTokens s now
  if 1 ≤ s1.tokens then
    ({ s1 with tokens := s1.tokens - 1 }, now)
  else
    ({ s1 with tokens := 0 }, now + (1 - s1.tokens) / s1.currentRps * 1000)

/-- Source: `reportSuccess()`: bump counters; on reaching the streak threshold *while
`currentRps < maxRps`*, multiply the rate (clamped to `maxRps`) and reset the
streak. -/
def reportSuccess (cfg : RLConfig) (s : RLState) : RLState :=
  let s1 := { s with successCount := s.successCount + 1, successStreak := s.successStreak + 1 }
  if cfg.successStreakThreshold ≤ s1.successStreak ∧ s1.currentRps < cfg.maxRps then
    { s1 with currentRps := min cfg.maxRps (s1.currentRps * cfg.recoveryFactor), successStreak := 0 }
  else s1

/-- Source: `reportError(status)`: bump the error counter, reset the streak, and on
status 503/429/403 multiply the rate by `backoffFactor` clamped to `minRps`. -/
def reportError (cfg : RLConfig) (s : RLState) (status : Nat) : RLState :=
  let s1 := { s with errorCount := s.errorCount + 1, successStreak := 0 }
  if status = 503 ∨ status = 429 ∨ status = 403 then
    { s1 with currentRps := max cfg.minRps (s1.currentRps * cfg.backoffFactor) }
  else s1

/-- The token count the limiter itself would compute at time `t` (what the
next `refillTokens()` yields): the bucket's observable level. -/
def tokensAt (s : RLState) (t : ℚ) : ℚ := (refillTokens s t).tokens

/-- C5 as stated is false: a waiting `acquire` completes with the bucket
holding the refill accrued during the wait (the stored count is forced to 0
but `lastRefill` is not advanced), not "refilled count minus one".  Concrete
run: rps 1, 0 tokens, acquire at t = 0 completes at t = 1000 with an
observable level of 1 token, while exactly-one-token accounting demands 0. -/
theorem c5_counterexample :
    let s : RLState := ⟨1, 0, 0, 0, 0, 0⟩
    let r := acquire s 0
    tokensAt r.1 r.2 = 1 ∧ tokensAt s r.2 - 1 = 0 ∧
      ¬ tokensAt r.1 r.2 = tokensAt s r.2 - 1 := by
  refine ⟨?_, ?_, ?_⟩ <;> norm_num [tokensAt, acquire, refillTokens]

/-- C5 amended: a fast-path `acquire` (at least one token after refill) does
consume exactly one token — the observable level at completion is the
refilled count minus one.  A waiting `acquire`, however, zeroes the stored
count without advancing `lastRefill`, so at its completion time the bucket's
observable level is `1 - t` (the refill accrued during the wait), not
`refilled - 1 = 0`: it nets only the `t < 1` tokens present at entry. -/
theorem c5_acquire_token_accounting (s : RLState) (now : ℚ)
    (h0 : 0 ≤ s.tokens) (hlr : s.lastRefill ≤ now) (h1 : 1 ≤ s.currentRps) :
    (1 ≤ (refillTokens s now).tokens →
      acquire s now =
        ({ refillTokens s now with tokens := (refillTokens s now).tokens - 1 }, now) ∧
      tokensAt (acquire s now).1 now = tokensAt s now - 1) ∧
    ((refillTokens s now).tokens < 1 →
      (acquire s now).2 = now + (1 - (refillTokens s now).tokens) / s.currentRps * 1000 ∧
      tokensAt (acquire s now).1 (acquire s now).2 = 1 - (refillTokens s now).tokens ∧
      tokensAt s (acquire s now).2 = 1) := by
  have hcap : (0:ℚ) < s.currentRps := lt_of_lt_of_le one_pos h1
  have hX0 : 0 ≤ s.tokens + (now - s.lastRefill) / 1000 * s.currentRps := by
    have : 0 ≤ (now - s.lastRefill) / 1000 * s.currentRps :=
      mul_nonneg (div_nonneg (by linarith) (by norm_num)) (le_of_lt hcap)
    linarith
  have ht1le : (refillTokens s now).tokens ≤ s.currentRps := by
    simp only [refillTokens]
    exact min_le_left _ _
  have ht10 : 0 ≤ (refillTokens s now).tokens := by
    simp only [refillTokens]
    exact le_min (le_of_lt hcap) hX0
  constructor
  · intro hfast
    have hacq : acquire s now =
        ({ refillTokens s now with tokens := (refillTokens s now).tokens - 1 }, now) := by
      unfold acquire
      rw [if_pos hfast]
    refine ⟨hacq, ?_⟩
    rw [hacq]
    show min s.currentRps ((refillTokens s now).tokens - 1 + (now - now) / 1000 * s.currentRps)
        = tokensAt s now - 1
    have : tokensAt s now = (refillTokens s now).tokens := rfl
    rw [this]
    rw [min_eq_right (by linarith)]
    ring
  · intro hslow
    have hacq : acquire s now =
        ({ refillTokens s now with tokens := 0 },
          now + (1 - (refillTokens s now).tokens) / s.currentRps * 1000) := by
      unfold acquire
      rw [if_neg (by linarith)]
      rfl
    have ht1X : (refillTokens s now).tokens
        = s.tokens + (now - s.lastRefill) / 1000 * s.currentRps := by
      by_cases hc : s.tokens + (now - s.lastRefill) / 1000 * s.currentRps ≤ s.currentRps
      · simp only [refillTokens]
        exact min_eq_right hc
      · exfalso
        have : (refillTokens s now).tokens = s.currentRps := by
          simp only [refillTokens]
          exact min_eq_left (by linarith)
        linarith
    refine ⟨by rw [hacq], ?_, ?_⟩
    · rw [hacq]
      show min s.currentRps
          (0 + (now + (1 - (refillTokens s now).tokens) / s.currentRps * 1000 - now) / 1000
            * s.currentRps) = 1 - (refillTokens s now).tokens
      have hsimp : (0:ℚ) + (now + (1 - (refillTokens s now).tokens) / s.currentRps * 1000 - now)
          / 1000 * s.currentRps = 1 - (refillTokens s now).tokens := by
        field_simp
        ring
      rw [hsimp, min_eq_right (by linarith)]
    · rw [hacq]
      show min s.currentRps
          (s.tokens + (now + (1 - (refillTokens s now).tokens) / s.currentRps * 1000
            - s.lastRefill) / 1000 * s.currentRps) = 1
      have hsimp : s.tokens + (now + (1 - (refillTokens s now).tokens) / s.currentRps * 1000
          - s.lastRefill) / 1000 * s.currentRps = 1 := by
        rw [ht1X]
        field_simp
        ring
      rw [hsimp, min_eq_right h1]

/-- C5 amended, witnessed at a concrete fast-path call and a concrete waiting
call (rps 2, entered with 1/2 token at t = 0). -/
theorem c5_acquire_token_accounting_witness :
    (0:ℚ) ≤ (⟨2, 1/2, 0, 0, 0, 0⟩ : RLState).tokens ∧
    (⟨2, 1/2, 0, 0, 0, 0⟩ : RLState).lastRefill ≤ (0:ℚ) ∧
    (1:ℚ) ≤ (⟨2, 1/2, 0, 0, 0, 0⟩ : RLState).currentRps ∧
    ((refillTokens ⟨2, 1/2, 0, 0, 0, 0⟩ 0).tokens < 1 ∧
      (acquire ⟨2, 1/2, 0, 0, 0, 0⟩ 0).2
        = 0 + (1 - (refillTokens ⟨2, 1/2, 0, 0, 0, 0⟩ 0).tokens) / 2 * 1000 ∧
      tokensAt (acquire ⟨2, 1/2, 0, 0, 0, 0⟩ 0).1 (acquire ⟨2, 1/2, 0, 0, 0, 0⟩ 0).2
        = 1 - (refillTokens ⟨2, 1/2, 0, 0, 0, 0⟩ 0).tokens) := by
  have hslow : (refillTokens (⟨2, 1/2, 0, 0, 0, 0⟩ : RLState) 0).tokens < 1 := by
    norm_num [refillTokens]
  have h := (c5_acquire_token_accounting ⟨2, 1/2, 0, 0, 0, 0⟩ 0
    (by norm_num) (by norm_num) (by norm_num)).2 hslow
  exact ⟨by norm_num, by norm_num, by norm_num, hslow, h.1, h.2.1⟩

/-- C6 as stated is false: `reportSuccess` applies the recovery step only
while `currentRps < maxRps`.  With threshold 2 and the rate already at
`maxRps`, the second consecutive success reaches the threshold but the streak
is NOT reset (it stays at 2), contradicting "resets the streak to zero". -/
theorem c6_counterexample :
    let cfg : RLConfig := ⟨100, 10, 100, 4/5, 21/20, 2⟩
    let s : RLState := ⟨100, 100, 0, 1, 7, 0⟩
    cfg.successStreakThreshold ≤ s.successStreak + 1 ∧
      (reportSuccess cfg s).successStreak = 2 ∧
      ¬ (reportSuccess cfg s).successStreak = 0 := by
  refine ⟨by norm_num, ?_, ?_⟩ <;> norm_num [reportSuccess]

/-- C6 amended: `reportError(status)` always resets the streak and bumps the
error counter, and multiplies the rate by `backoffFactor` (clamped below at
`minRps`) exactly when the status is 403, 429 or 503.  `reportSuccess()`
bumps the counters and, when the streak reaches the threshold, applies the
recovery multiplication (clamped at `maxRps`) and resets the streak **only if
`currentRps < maxRps`**; at or above `maxRps` the rate is left unchanged and
the streak keeps growing instead of being reset. -/
theorem c6_feedback_updates (cfg : RLConfig) (s : RLState) (status : Nat) :
    ((reportError cfg s status).successStreak = 0 ∧
     (reportError cfg s status).errorCount = s.errorCount + 1 ∧
     (reportError cfg s status).currentRps =
       (if status = 403 ∨ status = 429 ∨ status = 503 then
          max cfg.minRps (s.currentRps * cfg.backoffFactor)
        else s.currentRps)) ∧
    ((reportSuccess cfg s).successCount = s.successCount + 1 ∧
     (cfg.successStreakThreshold ≤ s.successStreak + 1 →
       (s.currentRps < cfg.maxRps →
         (reportSuccess cfg s).currentRps = min cfg.maxRps (s.currentRps * cfg.recoveryFactor) ∧
         (reportSuccess cfg s).successStreak = 0) ∧
       (cfg.maxRps ≤ s.currentRps →
         (reportSuccess cfg s).currentRps = s.currentRps ∧
         (reportSuccess cfg s).successStreak = s.successStreak + 1)) ∧
     (s.successStreak + 1 < cfg.successStreakThreshold →
       (reportSuccess cfg s).currentRps = s.currentRps ∧
       (reportSuccess cfg s).successStreak = s.successStreak + 1)) := by
  refine ⟨⟨?_, ?_, ?_⟩, ?_, ?_, ?_⟩
  · by_cases h : status = 503 ∨ status = 429 ∨ status = 403 <;> simp [reportError, h]
  · by_cases h : status = 503 ∨ status = 429 ∨ status = 403 <;> simp [reportError, h]
  · by_cases h : status = 403
    · simp [reportError, h]
    · by_cases h' : status = 429
      · simp [reportError, h, h']
      · by_cases h'' : status = 503 <;> simp [reportError, h, h', h'']
  · by_cases h : cfg.successStreakThreshold ≤ s.successStreak + 1 ∧ s.currentRps < cfg.maxRps <;>
      simp [reportSuccess, h]
  · intro hth
    constructor
    · intro hlt
      have h : cfg.successStreakThreshold ≤ s.successStreak + 1 ∧ s.currentRps < cfg.maxRps :=
        ⟨hth, hlt⟩
      simp [reportSuccess, h]
    · intro hge
      have h : ¬ (cfg.successStreakThreshold ≤ s.successStreak + 1 ∧ s.currentRps < cfg.maxRps) := by
        rintro ⟨-, hlt⟩
        exact absurd hge (not_le.mpr hlt)
      simp [reportSuccess, h]
  · intro hlt
    have h : ¬ (cfg.successStreakThreshold ≤ s.successStreak + 1 ∧ s.currentRps < cfg.maxRps) := by
      rintro ⟨hth, -⟩
      omega
    simp [reportSuccess, h]

/-- C6 amended, witnessed: threshold 2, rate 50 below `maxRps` 100 — the
second success multiplies the rate to `min 100 (50·(21/20)) = 105/2` and
resets the streak; and a `reportError 404` resets the streak while leaving
the rate at 50. -/
theorem c6_feedback_updates_witness :
    (reportError ⟨100, 10, 100, 4/5, 21/20, 2⟩ ⟨50, 3, 0, 1, 7, 0⟩ 404).successStreak = 0 ∧
    (reportError ⟨100, 10, 100, 4/5, 21/20, 2⟩ ⟨50, 3, 0, 1, 7, 0⟩ 404).currentRps = 50 ∧
    (reportSuccess ⟨100, 10, 100, 4/5, 21/20, 2⟩ ⟨50, 3, 0, 1, 7, 0⟩).currentRps = 105/2 ∧
    (reportSuccess ⟨100, 10, 100, 4/5, 21/20, 2⟩ ⟨50, 3, 0, 1, 7, 0⟩).successStreak = 0 := by
  have h := c6_feedback_updates ⟨100, 10, 100, 4/5, 21/20, 2⟩ ⟨50, 3, 0, 1, 7, 0⟩ 404
  have herr := h.1
  have hsucc := (h.2.2.1 (by norm_num)).1 (by norm_num)
  refine ⟨herr.1, ?_, ?_, hsucc.2⟩
  · rw [herr.2.2]
    norm_num
  · rw [hsucc.1]
    norm_num [min_eq_right]

/-!
WARC record parsing (`src/apps/scraper/commoncrawl/warc.ts`).  `findPattern`
scans positions left to right and returns the first index where the pattern
occurs (`-1`, modelled as `none`, otherwise).  The header slice is decoded as
UTF-8 and split on `"\r\n"`; headers are ASCII in every construction used
here, so lines are modelled as byte lists (see the header comment).  The two
regexes are implemented as deterministic scanners.  In
`HTTP\/[\d.]+\s+(\d+)` adjacent character classes are disjoint, so greedy
matching never needs to backtrack.  In `^Content-Type:\s*(.+)/i` the greedy
`\s*` consumes the whitespace run after the key (LF included, since `\s`
matches `\n`), while `.` does not match `\n`: the capture runs from the
first byte after that run up to the next LF.  When only whitespace follows
the key, backtracking can still hand `(.+)` a single non-LF whitespace byte,
whose `trim()` is empty; when nothing or only LF bytes follow, there is no
match at all.  The byte-level `\s`/`trim`/`.`-classes coincide with the
JavaScript ones exactly on ASCII header content (non-ASCII whitespace such
as U+00A0 has no single-byte rendering), which the round-trip theorem's
hypotheses guarantee.
-/

def crlf : List Nat := [13, 10]
def crlfcrlf : List Nat := [13, 10, 13, 10]

/-- Source: `findPattern(data, pattern)`: index of the first occurrence, else none.
The source iterates `i` from 0 while a full inner comparison succeeds; this
structural version checks the pattern as a prefix of each successive suffix,
which visits the same candidates (positions past `data.length - pattern.length`
can never match). -/
def findPattern : List Nat → List Nat → Option Nat
  | data, pat =>
    if pat <+: data then some 0
    else
      match data with
      | [] => none
      | _ :: rest => (findPattern rest pat).map (· + 1)

/-- Source: `httpHeaders.split("\r\n")`, at the byte level (left-to-right,
non-overlapping, like the JavaScript `String.split`). -/
def splitOnCrlf : List Nat → List (List Nat)
  | [] => [[]]
  | [b] => [[b]]
  | b :: c :: rest =>
    if b = 13 ∧ c = 10 then [] :: splitOnCrlf rest
    else
      match splitOnCrlf (c :: rest) with
      | [] => [[b]]
      | x :: xs => (b :: x) :: xs

def isDigitByte (b : Nat) : Bool := 48 ≤ b && b ≤ 57
def isDigitDotByte (b : Nat) : Bool := isDigitByte b || b = 46
/-- The `\s` class and `String.trim`, restricted to the ASCII whitespace that
can occur in a header line. -/
def isSpaceByte (b : Nat) : Bool := b = 32 || b = 9 || b = 11 || b = 12 || b = 13 || b = 10

/-- Source: `parseInt(digits, 10)` on a non-empty decimal digit string. -/
def digitsVal (l : List Nat) : Nat := l.foldl (fun a d => 10 * a + (d - 48)) 0

/-- Bytes of the literal `"HTTP/"`. -/
def httpSlash : List Nat := asciiBytes "HTTP/"

/-- One anchored attempt of `HTTP\/[\d.]+\s+(\d+)` at the start of `l`. -/
def matchStatusAt (l : List Nat) : Option Nat :=
  if httpSlash <+: l then
    let r1 := l.drop 5
    let ds := r1.takeWhile isDigitDotByte
    if ds = [] then none
    else
      let r2 := r1.drop ds.length
      let ws := r2.takeWhile isSpaceByte
      if ws = [] then none
      else
        let r3 := r2.drop ws.length
        let st := r3.takeWhile isDigitByte
        if st = [] then none else some (digitsVal st)
  else none

/-- Leftmost match of `HTTP\/[\d.]+\s+(\d+)` in the line (the JS regex scans
start positions left to right). -/
def matchHttpStatus : List Nat → Option Nat
  | [] => none
  | l@(_ :: rest) =>
    match matchStatusAt l with
    | some v => some v
    | none => matchHttpStatus rest

/-- Bytes of the lowercase literal `"content-type:"`. -/
def ctKey : List Nat := asciiBytes "content-type:"

/-- ASCII lowercasing, as the `/i` flag behaves on ASCII header bytes. -/
def lowerByte (b : Nat) : Nat := if 65 ≤ b ∧ b ≤ 90 then b + 32 else b

/-- Source: `String.trim` on a header-line slice. -/
def trimBytes (l : List Nat) : List Nat :=
  ((l.dropWhile isSpaceByte).reverse.dropWhile isSpaceByte).reverse

/-- Source: `line.match(/^Content-Type:\s*(.+)/i)` followed by
`match[1].trim()`.  After the case-insensitive key, the greedy `\s*` eats
the whitespace run (including LF bytes); `.` does not match `\n`, so the
capture is the remainder up to the next LF.  If the run reaches the end of
the line, backtracking lets `(.+)` capture the last non-LF byte of the run
when one exists (a whitespace byte, so its trim is empty); if only LF bytes
(or nothing) follow the key, the regex does not match and the loop moves to
the next line.  See the section comment for why maximal munch plus this
backtracking case is exactly the JavaScript semantics on ASCII lines. -/
def matchContentTypeLine (l : List Nat) : Option (List Nat) :=
  if ctKey <+: l.map lowerByte then
    let rest := l.drop ctKey.length
    let afterW := rest.drop (rest.takeWhile isSpaceByte).length
    if afterW ≠ [] then some (trimBytes (afterW.takeWhile (fun b => b != 10)))
    else if rest.any (fun b => b != 10) then some [] else none
  else none

/-- The `for (const line of httpLines)` loop: first matching line wins,
default `""`. -/
def findContentType : List (List Nat) → List Nat
  | [] => []
  | l :: rest =>
    match matchContentTypeLine l with
    | some v => v
    | none => findContentType rest

/-- Source: `WarcResult`: extracted body, HTTP status, content type, body length. -/
structure WarcParsed where
  content : List Nat
  httpStatus : Nat
  contentType : List Nat
  contentLength : Nat
deriving Repr, DecidableEq

/-- Source: `parseWarcRecord(data)`: find the two CRLF-CRLF separators by byte
search, parse the status line and the `Content-Type` header from the slice
between them, and return everything after the second separator as the body.
Thrown `Error`s are modelled as `Except.error` of the message. -/
def parseWarcRecord (data : List Nat) : Except String WarcParsed :=
  match findPattern data crlfcrlf with
  | none => .error "Invalid WARC record: no WARC header separator found"
  | some doubleCrlf =>
    let httpData := data.drop (doubleCrlf + 4)
    match findPattern httpData crlfcrlf with
    | none => .error "Invalid WARC record: no HTTP header separator found"
    | some httpHeaderEnd =>
      let httpLines := splitOnCrlf (httpData.take httpHeaderEnd)
      let httpStatus :=
        match httpLines with
        | [] => 0
        | l0 :: _ => (matchHttpStatus l0).getD 0
      let content := httpData.drop (httpHeaderEnd + 4)
      .ok ⟨content, httpStatus, findContentType httpLines, content.length⟩

lemma findPattern_at_crlfcrlf (u v : List Nat)
    (h : ¬ crlfcrlf <:+: (u ++ [13, 10, 13])) :
    findPattern (u ++ (crlfcrlf ++ v)) crlfcrlf = some u.length := by
  induction u with
  | nil =>
    have hp : crlfcrlf <+: crlfcrlf ++ v := List.prefix_append _ _
    simp [findPattern, hp]
  | cons a u ih =>
    have hnp : ¬ crlfcrlf <+: (a :: u) ++ (crlfcrlf ++ v) := by
      intro hpre
      apply h
      have hassoc : (a :: u) ++ (crlfcrlf ++ v)
          = ((a :: u) ++ [13, 10, 13]) ++ (10 :: v) := by
        simp [crlfcrlf]
      have htake := List.prefix_iff_eq_take.mp hpre
      rw [hassoc] at htake
      have hlen : (4:ℕ) ≤ ((a :: u) ++ [13, 10, 13]).length := by
        simp
      rw [show crlfcrlf.length = 4 from rfl,
        List.take_append_of_le_length hlen] at htake
      exact (List.prefix_iff_eq_take.mpr (by simpa using htake)).isInfix
    have hih : ¬ crlfcrlf <:+: (u ++ [13, 10, 13]) := by
      intro hin
      exact h (hin.trans (List.suffix_cons a _).isInfix)
    have hstep : (a :: u) ++ (crlfcrlf ++ v) = a :: (u ++ (crlfcrlf ++ v)) := rfl
    rw [hstep]
    rw [hstep] at hnp
    simp only [findPattern, if_neg hnp, ih hih, Option.map_some']
    rfl

lemma no_crlfcrlf_tail (c : List Nat) (hc : 13 ∉ c) :
    ¬ crlfcrlf <:+: (c ++ [13, 10, 13]) := by
  induction c with
  | nil =>
    intro h
    have := h.length_le
    simp [crlfcrlf] at this
  | cons x c ih =>
    intro h
    rcases List.infix_cons_iff.mp h with hp | hi
    · simp only [crlfcrlf, List.cons_prefix_cons] at hp
      exact hc (List.mem_cons.mpr (Or.inl hp.1))
    · exact ih (fun hm => hc (List.mem_cons_of_mem _ hm)) hi

lemma no_crlfcrlf_two_lines (a c : List Nat) (ha : 13 ∉ a) (hc : 13 ∉ c) (hne : c ≠ []) :
    ¬ crlfcrlf <:+: (a ++ ([13, 10] ++ (c ++ [13, 10, 13]))) := by
  induction a with
  | nil =>
    intro h
    simp only [List.nil_append] at h
    rcases List.infix_cons_iff.mp h with hp | hi
    · rcases hc' : c with _ | ⟨d, c'⟩
      · exact hne hc'
      · subst hc'
        rw [show ((d :: c') ++ [13, 10, 13] : List Nat)
          = d :: (c' ++ [13, 10, 13]) from rfl] at hp
        have h1 := List.cons_prefix_cons.mp (by simpa only [crlfcrlf] using hp)
        have h2 := List.cons_prefix_cons.mp h1.2
        have h3 := List.cons_prefix_cons.mp h2.2
        exact hc (List.mem_cons.mpr (Or.inl h3.1))
    · rcases List.infix_cons_iff.mp hi with hp2 | hi2
      · simp only [crlfcrlf, List.cons_prefix_cons] at hp2
        omega
      · exact no_crlfcrlf_tail c hc hi2
  | cons x a' ih =>
    intro h
    rcases List.infix_cons_iff.mp (by simpa using h) with hp | hi
    · simp only [crlfcrlf, List.cons_prefix_cons] at hp
      exact ha (List.mem_cons.mpr (Or.inl hp.1))
    · exact ih (fun hm => ha (List.mem_cons_of_mem _ hm)) hi

lemma splitOnCrlf_no13 (a : List Nat) (ha : 13 ∉ a) : splitOnCrlf a = [a] := by
  induction a with
  | nil => rfl
  | cons x a' ih =>
    rcases a' with _ | ⟨y, a''⟩
    · rfl
    · have hx : ¬ (x = 13 ∧ y = 10) := by
        rintro ⟨rfl, -⟩
        exact ha (List.mem_cons_self _ _)
      have hrec : splitOnCrlf (y :: a'') = [y :: a''] :=
        ih (fun hm => ha (List.mem_cons_of_mem _ hm))
      simp [splitOnCrlf, hx, hrec]

lemma splitOnCrlf_append (a b : List Nat) (ha : 13 ∉ a) :
    splitOnCrlf (a ++ (13 :: 10 :: b)) = a :: splitOnCrlf b := by
  induction a with
  | nil => simp [splitOnCrlf]
  | cons x a' ih =>
    have hx : x ≠ 13 := fun hh => ha (by simp [hh])
    have hih := ih (fun hm => ha (List.mem_cons_of_mem _ hm))
    rcases ha' : a' with _ | ⟨y, a''⟩
    · subst ha'
      have hcond : ¬ (x = 13 ∧ (13:Nat) = 10) := by rintro ⟨rfl, -⟩; exact hx rfl
      simp only [List.nil_append] at hih
      simp [splitOnCrlf, hcond, hih]
    · subst ha'
      have hcond : ¬ (x = 13 ∧ y = 10) := by rintro ⟨rfl, -⟩; exact hx rfl
      have hshape : (x :: y :: a'') ++ (13 :: 10 :: b)
          = x :: y :: (a'' ++ (13 :: 10 :: b)) := rfl
      rw [hshape]
      have hshape2 : (y :: a'') ++ (13 :: 10 :: b) = y :: (a'' ++ (13 :: 10 :: b)) := rfl
      rw [hshape2] at hih
      simp [splitOnCrlf, hcond, hih]

lemma takeWhile_all_append (p : Nat → Bool) (xs : List Nat) (y : Nat) (ys : List Nat)
    (h : ∀ x ∈ xs, p x = true) (hy : p y = false) :
    (xs ++ y :: ys).takeWhile p = xs := by
  induction xs with
  | nil =>
    have hy' : ¬ p y = true := by simp [hy]
    simp [List.takeWhile_cons_of_neg hy']
  | cons x xs' ih =>
    have hx : p x = true := h x (List.mem_cons_self _ _)
    have : ((x :: xs') ++ y :: ys) = x :: (xs' ++ y :: ys) := rfl
    rw [this, List.takeWhile_cons_of_pos hx, ih (fun z hz => h z (List.mem_cons_of_mem _ hz))]

/-- Decimal rendering of a status code (as interpolation into the status
line renders it). -/
def decimalBytes (n : Nat) : List Nat :=
  if n = 0 then [48] else ((Nat.digits 10 n).map (· + 48)).reverse

lemma decimalBytes_ne_nil (n : Nat) : decimalBytes n ≠ [] := by
  unfold decimalBytes
  split
  · simp
  · simpa using Nat.digits_ne_nil_iff_ne_zero.mpr (by assumption)

lemma decimalBytes_isDigit (n : Nat) : ∀ b ∈ decimalBytes n, isDigitByte b = true := by
  intro b hb
  unfold decimalBytes at hb
  split at hb
  · simp at hb
    subst hb
    decide
  · simp only [List.mem_reverse, List.mem_map] at hb
    rcases hb with ⟨d, hd, rfl⟩
    have : d < 10 := Nat.digits_lt_base (by norm_num) hd
    simp [isDigitByte]
    omega

lemma digitsVal_rev_map (L : List Nat) :
    digitsVal ((L.map (· + 48)).reverse) = Nat.ofDigits 10 L := by
  induction L with
  | nil => simp [digitsVal, Nat.ofDigits]
  | cons d L ih =>
    have hsplit : ((d :: L).map (· + 48)).reverse = (L.map (· + 48)).reverse ++ [d + 48] := by
      simp
    rw [hsplit]
    unfold digitsVal at ih ⊢
    rw [List.foldl_append]
    simp [Nat.ofDigits_cons, ih]
    omega

lemma digitsVal_decimalBytes (n : Nat) : digitsVal (decimalBytes n) = n := by
  unfold decimalBytes
  split
  · subst ‹n = 0›
    decide
  · rw [digitsVal_rev_map, Nat.ofDigits_digits]

/-- The HTTP status line of the claim's well-formed record:
`"HTTP/1.1 " + status + " OK"`. -/
def statusLineBytes (status : Nat) : List Nat :=
  asciiBytes "HTTP/1.1 " ++ (decimalBytes status ++ asciiBytes " OK")

/-- The `Content-Type` header line of the claim's well-formed record. -/
def ctHeaderBytes (ct : List Nat) : List Nat := asciiBytes "Content-Type: " ++ ct

lemma statusLineBytes_no13 (status : Nat) : 13 ∉ statusLineBytes status := by
  intro h
  unfold statusLineBytes at h
  rcases List.mem_append.mp h with h | h
  · revert h
    decide
  · rcases List.mem_append.mp h with h | h
    · have := decimalBytes_isDigit status 13 h
      revert this
      decide
    · revert h
      decide

lemma ctHeaderBytes_no13 (ct : List Nat) (hct : 13 ∉ ct) : 13 ∉ ctHeaderBytes ct := by
  intro h
  unfold ctHeaderBytes at h
  rcases List.mem_append.mp h with h | h
  · revert h
    decide
  · exact hct h

lemma matchStatusAt_statusLine (status : Nat) :
    matchStatusAt (statusLineBytes status) = some status := by
  rcases hdec : decimalBytes status with _ | ⟨d, dec'⟩
  · exact absurd hdec (decimalBytes_ne_nil status)
  · have hdig : ∀ b ∈ decimalBytes status, isDigitByte b = true := decimalBytes_isDigit status
    have hd : isDigitByte d = true := hdig d (by rw [hdec]; exact List.mem_cons_self _ _)
    have hform : statusLineBytes status
        = httpSlash ++ ([49, 46, 49] ++ (32 :: (decimalBytes status ++ [32, 79, 75]))) := by
      unfold statusLineBytes httpSlash asciiBytes
      simp
    have hdrop5 : (httpSlash ++ ([49, 46, 49] ++ (32 :: (decimalBytes status ++ [32, 79, 75])))).drop 5
        = [49, 46, 49] ++ (32 :: (decimalBytes status ++ [32, 79, 75])) :=
      List.drop_left httpSlash _
    have htw1 : ([49, 46, 49] ++ (32 :: (decimalBytes status ++ [32, 79, 75]))).takeWhile isDigitDotByte
        = [49, 46, 49] := takeWhile_all_append _ _ _ _ (by decide) (by decide)
    have hdrop3 : ([49, 46, 49] ++ (32 :: (decimalBytes status ++ [32, 79, 75]))).drop
          ([49, 46, 49] : List Nat).length
        = 32 :: (decimalBytes status ++ [32, 79, 75]) := List.drop_left [49, 46, 49] _
    have hd' : isSpaceByte d = false := by
      revert hd
      simp [isDigitByte, isSpaceByte]
      omega
    have htw2 : (32 :: (decimalBytes status ++ [32, 79, 75])).takeWhile isSpaceByte = [32] := by
      rw [hdec]
      have hsh : (32 :: ((d :: dec') ++ [32, 79, 75])) = [32] ++ (d :: (dec' ++ [32, 79, 75])) := rfl
      rw [hsh]
      exact takeWhile_all_append _ _ _ _ (by decide) hd'
    have hdrop1 : (32 :: (decimalBytes status ++ [32, 79, 75])).drop ([32] : List Nat).length
        = decimalBytes status ++ [32, 79, 75] := List.drop_left [32] _
    have htw3 : (decimalBytes status ++ [32, 79, 75]).takeWhile isDigitByte
        = decimalBytes status := by
      have hsh : (decimalBytes status ++ [32, 79, 75])
          = decimalBytes status ++ (32 :: [79, 75]) := rfl
      rw [hsh]
      exact takeWhile_all_append _ _ _ _ hdig (by decide)
    rw [hform]
    unfold matchStatusAt
    rw [if_pos (List.prefix_append _ _)]
    simp only [hdrop5, htw1]
    rw [if_neg (by simp)]
    simp only [hdrop3, htw2]
    rw [if_neg (by simp)]
    simp only [hdrop1, htw3]
    rw [if_neg (decimalBytes_ne_nil status), digitsVal_decimalBytes]

lemma matchHttpStatus_of_head (l : List Nat) (v : Nat)
    (h : matchStatusAt l = some v) (hne : l ≠ []) : matchHttpStatus l = some v := by
  rcases l with _ | ⟨x, rest⟩
  · exact absurd rfl hne
  · unfold matchHttpStatus
    rw [h]

lemma matchContentTypeLine_statusLine (status : Nat) :
    matchContentTypeLine (statusLineBytes status) = none := by
  have hcons : statusLineBytes status
      = 72 :: (asciiBytes "TTP/1.1 " ++ (decimalBytes status ++ asciiBytes " OK")) := rfl
  have hne : ¬ ctKey <+: (statusLineBytes status).map lowerByte := by
    rw [hcons]
    intro hp
    have h1 := List.cons_prefix_cons.mp (by simpa only [ctKey, asciiBytes, List.map_cons] using hp)
    have : (99:Nat) = lowerByte 72 := h1.1
    simp [lowerByte] at this
  unfold matchContentTypeLine
  rw [if_neg hne]

lemma takeWhile_ne10_eq_self (l : List Nat) (h : 10 ∉ l) :
    l.takeWhile (fun b => b != 10) = l := by
  induction l with
  | nil => rfl
  | cons x l ih =>
    have hx : (x != 10) = true := by
      simp only [bne_iff_ne, ne_eq]
      intro hh
      exact h (by simp [hh])
    rw [List.takeWhile_cons]
    simp only [hx, if_true]
    rw [ih (fun hm => h (List.mem_cons_of_mem _ hm))]

lemma matchContentTypeLine_ct (ct : List Nat) (hne : ct ≠ []) (h10 : 10 ∉ ct)
    (hhead : ∀ x, ct.head? = some x → isSpaceByte x = false)
    (hlast : ∀ x, ct.getLast? = some x → isSpaceByte x = false) :
    matchContentTypeLine (ctHeaderBytes ct) = some ct := by
  have hform : ctHeaderBytes ct = asciiBytes "Content-Type:" ++ (32 :: ct) := rfl
  have hpre : ctKey <+: (ctHeaderBytes ct).map lowerByte := by
    rw [hform, List.map_append]
    have hlit : (asciiBytes "Content-Type:").map lowerByte = ctKey := by decide
    rw [hlit]
    exact List.prefix_append _ _
  have hdrop : (ctHeaderBytes ct).drop ctKey.length = 32 :: ct := by
    rw [hform]
    exact List.drop_left (asciiBytes "Content-Type:") _
  rcases hct : ct with _ | ⟨c0, ct'⟩
  · exact absurd hct hne
  · subst hct
    have hc0 : isSpaceByte c0 = false := hhead c0 rfl
    have htw : (32 :: c0 :: ct').takeWhile isSpaceByte = [32] := by
      rw [List.takeWhile_cons_of_pos (by decide), List.takeWhile_cons_of_neg (by simp [hc0])]
    have hdropw : (32 :: c0 :: ct').drop ([32] : List Nat).length = c0 :: ct' := rfl
    have htw10 : (c0 :: ct').takeWhile (fun b => b != 10) = c0 :: ct' :=
      takeWhile_ne10_eq_self _ h10
    have htrim : trimBytes (c0 :: ct') = c0 :: ct' := by
      have hd1 : (c0 :: ct').dropWhile isSpaceByte = c0 :: ct' :=
        List.dropWhile_cons_of_neg (by simp [hc0])
      have hrev : (c0 :: ct').reverse.dropWhile isSpaceByte = (c0 :: ct').reverse := by
        rcases hr : (c0 :: ct').reverse with _ | ⟨y, t⟩
        · have := congrArg List.length hr
          simp at this
        · have hy : (c0 :: ct').getLast? = some y := by
            rw [← List.head?_reverse, hr]
            rfl
          rw [List.dropWhile_cons_of_neg (by simp [hlast y hy])]
      unfold trimBytes
      rw [hd1, hrev, List.reverse_reverse]
    unfold matchContentTypeLine
    rw [if_pos hpre]
    simp only [hdrop, htw, hdropw]
    rw [if_pos (by simp)]
    rw [htw10, htrim]

/-- The claim's well-formed two-tier archive record: archive headers,
CRLF CRLF, an HTTP status line plus a `Content-Type` header, CRLF CRLF,
body.  (Modelling the spec's `buildArchiveRecord`; the parser is the
source's.) -/
def buildWarcRecord (ah : List Nat) (status : Nat) (ct body : List Nat) : List Nat :=
  ah ++ (crlfcrlf ++ (statusLineBytes status ++ (crlf ++ (ctHeaderBytes ct ++ (crlfcrlf ++ body)))))

lemma parseWarcRecord_build (ah hh body : List Nat)
    (hah : ¬ crlfcrlf <:+: (ah ++ [13, 10, 13]))
    (hhh : ¬ crlfcrlf <:+: (hh ++ [13, 10, 13])) :
    parseWarcRecord (ah ++ (crlfcrlf ++ (hh ++ (crlfcrlf ++ body))))
      = .ok ⟨body,
          (match splitOnCrlf hh with
           | [] => 0
           | l0 :: _ => (matchHttpStatus l0).getD 0),
          findContentType (splitOnCrlf hh), body.length⟩ := by
  have h1 : findPattern (ah ++ (crlfcrlf ++ (hh ++ (crlfcrlf ++ body)))) crlfcrlf
      = some ah.length := findPattern_at_crlfcrlf ah _ hah
  have hdropA : (ah ++ (crlfcrlf ++ (hh ++ (crlfcrlf ++ body)))).drop (ah.length + 4)
      = hh ++ (crlfcrlf ++ body) := by
    rw [← List.drop_drop, List.drop_left]
    exact List.drop_left crlfcrlf _
  have h2 : findPattern (hh ++ (crlfcrlf ++ body)) crlfcrlf = some hh.length :=
    findPattern_at_crlfcrlf hh body hhh
  have htake : (hh ++ (crlfcrlf ++ body)).take hh.length = hh := List.take_left _ _
  have hdropB : (hh ++ (crlfcrlf ++ body)).drop (hh.length + 4) = body := by
    rw [← List.drop_drop, List.drop_left]
    exact List.drop_left crlfcrlf _
  simp only [parseWarcRecord, h1, hdropA, h2, htake, hdropB]

/-- C8: parsing a well-formed two-tier archive record built from a status
code, a content type (a well-formed single-line ASCII header value:
non-empty, CR-free and LF-free — `.` in the capture stops at `\n` — with no
surrounding whitespace) and an arbitrary body — even one containing
CRLF CRLF — returns exactly that status, that content type, and the body
byte-for-byte; and when the HTTP status line is missing the reported status
is 0 (and the content type empty).  The ASCII bound is what makes the
byte-level whitespace and trim classes coincide with the JavaScript
ones. -/
theorem c8_parse_build_roundtrip (ah : List Nat) (status : Nat) (ct body : List Nat)
    (hah : ¬ crlfcrlf <:+: (ah ++ [13, 10, 13]))
    (hct13 : 13 ∉ ct) (hct10 : 10 ∉ ct) (hascii : ∀ b ∈ ct, b < 128) (hctne : ct ≠ [])
    (hhead : ∀ x, ct.head? = some x → isSpaceByte x = false)
    (hlast : ∀ x, ct.getLast? = some x → isSpaceByte x = false) :
    parseWarcRecord (buildWarcRecord ah status ct body)
      = .ok ⟨body, status, ct, body.length⟩ ∧
    parseWarcRecord (ah ++ (crlfcrlf ++ (crlfcrlf ++ body)))
      = .ok ⟨body, 0, [], body.length⟩ := by
  constructor
  · have hsl13 := statusLineBytes_no13 status
    have hctl13 := ctHeaderBytes_no13 ct hct13
    have hctlne : ctHeaderBytes ct ≠ [] := by
      unfold ctHeaderBytes asciiBytes
      simp
    have hhh : ¬ crlfcrlf <:+:
        ((statusLineBytes status ++ (crlf ++ ctHeaderBytes ct)) ++ [13, 10, 13]) := by
      have h := no_crlfcrlf_two_lines (statusLineBytes status) (ctHeaderBytes ct)
        hsl13 hctl13 hctlne
      simpa [crlf, List.append_assoc] using h
    have hbuild : buildWarcRecord ah status ct body
        = ah ++ (crlfcrlf ++ ((statusLineBytes status ++ (crlf ++ ctHeaderBytes ct))
            ++ (crlfcrlf ++ body))) := by
      simp [buildWarcRecord, List.append_assoc]
    have hsplit : splitOnCrlf (statusLineBytes status ++ (crlf ++ ctHeaderBytes ct))
        = [statusLineBytes status, ctHeaderBytes ct] := by
      have hsh : statusLineBytes status ++ (crlf ++ ctHeaderBytes ct)
          = statusLineBytes status ++ (13 :: 10 :: ctHeaderBytes ct) := rfl
      rw [hsh, splitOnCrlf_append _ _ hsl13, splitOnCrlf_no13 _ hctl13]
    have hslne : statusLineBytes status ≠ [] := by
      unfold statusLineBytes asciiBytes
      simp
    have hstat : matchHttpStatus (statusLineBytes status) = some status :=
      matchHttpStatus_of_head _ _ (matchStatusAt_statusLine status) hslne
    rw [hbuild, parseWarcRecord_build ah _ body hah hhh]
    simp only [hsplit, findContentType, matchContentTypeLine_statusLine,
      matchContentTypeLine_ct ct hctne hct10 hhead hlast, hstat, Option.getD_some]
  · have hform2 : ah ++ (crlfcrlf ++ (crlfcrlf ++ body))
        = ah ++ (crlfcrlf ++ (([] : List Nat) ++ (crlfcrlf ++ body))) := by simp
    rw [hform2, parseWarcRecord_build ah [] body hah (by decide)]
    simp [splitOnCrlf, matchHttpStatus, findContentType,
      show matchContentTypeLine [] = none from by decide]

/-- C8, witnessed: the round trip at archive headers `"WARC/1.0"`, status
503, content type `"text/plain"`, and a body that itself contains
CRLF CRLF. -/
theorem c8_parse_build_roundtrip_witness :
    parseWarcRecord (buildWarcRecord (asciiBytes "WARC/1.0") 503 (asciiBytes "text/plain")
        [1, 13, 10, 13, 10, 2])
      = .ok ⟨[1, 13, 10, 13, 10, 2], 503, asciiBytes "text/plain", 6⟩ := by
  have hh : ∀ x, (asciiBytes "text/plain").head? = some x → isSpaceByte x = false := by
    intro x hx
    rw [show (asciiBytes "text/plain").head? = some 116 from rfl] at hx
    cases Option.some.inj hx
    decide
  have hl : ∀ x, (asciiBytes "text/plain").getLast? = some x → isSpaceByte x = false := by
    intro x hx
    rw [show (asciiBytes "text/plain").getLast? = some 110 from by decide] at hx
    cases Option.some.inj hx
    decide
  have h := (c8_parse_build_roundtrip (asciiBytes "WARC/1.0") 503 (asciiBytes "text/plain")
    [1, 13, 10, 13, 10, 2] (by decide) (by decide) (by decide) (by decide) (by decide)
    hh hl).1
  simpa using h

/-!
`fetchWarcRecord` (warc.ts): retry loop over `attempt = 0..maxRetries`.
Each iteration's interaction with the network is one `AttemptOutcome`:
either an HTTP response (status plus the decompressed range bytes — the
gunzip-or-raw fallback is upstream of everything modelled here) or a thrown
network/timeout error.  `HttpError` versus plain `Error` matters in the
catch clause, so the two are separate constructors; the `statusText`
fragment of the non-2xx message comes from the external response and is
omitted.  Rate-limiter feedback calls and inter-attempt waits (in seconds,
`2 ** attempt`) are logged in the trace.
-/

inductive AttemptOutcome
  | response (status : Nat) (body : List Nat)
  | netError (msg : String)
deriving Repr, DecidableEq

inductive FetchErr
  | httpError (status : Nat) (msg : String)
  | plainError (msg : String)
deriving Repr, DecidableEq

inductive RLEvent
  | success
  | error (status : Nat)
deriving Repr, DecidableEq

structure FetchTrace where
  result : Except FetchErr WarcParsed
  events : List RLEvent
  delaysSec : List Nat
  attemptsUsed : Nat
deriving Repr

/-- The body of `fetchWarcRecord`'s `for` loop, one recursive call per
iteration.  503/429: report error, retry with `2^attempt` s delay while
attempts remain, else throw `HttpError` (which the catch re-raises since no
attempts remain).  Other non-ok, non-206 statuses (403 included): throw
`HttpError` immediately — the catch re-raises it without reporting or
retrying.  Otherwise `reportSuccess()` runs and the bytes are parsed; a
parse `Error` is not an `HttpError`, so the catch retries it like a network
error while attempts remain. -/
def fetchLoop (maxRetries : Nat) : Nat → List AttemptOutcome → FetchTrace
  | _, [] => ⟨.error (.plainError "no modelled outcome"), [], [], 0⟩
  | attempt, .netError msg :: rest =>
    if attempt < maxRetries then
      let t := fetchLoop maxRetries (attempt + 1) rest
      ⟨t.result, t.events, 2 ^ attempt :: t.delaysSec, t.attemptsUsed + 1⟩
    else ⟨.error (.plainError msg), [], [], 1⟩
  | attempt, .response status body :: rest =>
    if status = 503 ∨ status = 429 then
      if attempt < maxRetries then
        let t := fetchLoop maxRetries (attempt + 1) rest
        ⟨t.result, .error status :: t.events, 2 ^ attempt :: t.delaysSec, t.attemptsUsed + 1⟩
      else
        ⟨.error (.httpError status ("WARC fetch failed after " ++ toString maxRetries
            ++ " retries: " ++ toString status)), [.error status], [], 1⟩
    else if ¬ (200 ≤ status ∧ status ≤ 299) ∧ status ≠ 206 then
      ⟨.error (.httpError status ("WARC fetch failed: " ++ toString status)), [], [], 1⟩
    else
      match parseWarcRecord body with
      | .ok r => ⟨.ok r, [.success], [], 1⟩
      | .error msg =>
        if attempt < maxRetries then
          let t := fetchLoop maxRetries (attempt + 1) rest
          ⟨t.result, .success :: t.events, 2 ^ attempt :: t.delaysSec, t.attemptsUsed + 1⟩
        else ⟨.error (.plainError msg), [.success], [], 1⟩

/-- C3 as stated is false on the 403 clause: a 403 response is thrown as a
non-retryable `HttpError` *before* any rate-limiter call, so it is never
reported as an error (the claim says it is).  Concrete run: a single 403
yields an empty event log. -/
theorem c3_counterexample :
    (fetchLoop 3 0 [.response 403 []]).events = [] ∧
    ¬ RLEvent.error 403 ∈ (fetchLoop 3 0 [.response 403 []]).events ∧
    (fetchLoop 3 0 [.response 403 []]).result
      = .error (.httpError 403 "WARC fetch failed: 403") := by
  refine ⟨by decide, by decide, rfl⟩

/-- C3 amended: 429/503 are reported to the rate limiter and retried after
`2^attempt` seconds while attempts remain, otherwise surfaced as a typed
HTTP error carrying the status; every other non-2xx, non-206 status —
including 403 — fails immediately with a typed HTTP error, with no retry and
no rate-limiter report. -/
theorem c3_fetch_status_handling (maxRetries attempt status : Nat) (body : List Nat)
    (rest : List AttemptOutcome) :
    ((status = 503 ∨ status = 429) → attempt < maxRetries →
      fetchLoop maxRetries attempt (.response status body :: rest)
        = ⟨(fetchLoop maxRetries (attempt + 1) rest).result,
           .error status :: (fetchLoop maxRetries (attempt + 1) rest).events,
           2 ^ attempt :: (fetchLoop maxRetries (attempt + 1) rest).delaysSec,
           (fetchLoop maxRetries (attempt + 1) rest).attemptsUsed + 1⟩) ∧
    ((status = 503 ∨ status = 429) → maxRetries ≤ attempt →
      fetchLoop maxRetries attempt (.response status body :: rest)
        = ⟨.error (.httpError status ("WARC fetch failed after " ++ toString maxRetries
             ++ " retries: " ++ toString status)), [.error status], [], 1⟩) ∧
    (¬ (status = 503 ∨ status = 429) → ¬ (200 ≤ status ∧ status ≤ 299) → status ≠ 206 →
      fetchLoop maxRetries attempt (.response status body :: rest)
        = ⟨.error (.httpError status ("WARC fetch failed: " ++ toString status)), [], [], 1⟩) := by
  refine ⟨?_, ?_, ?_⟩
  · intro hs hlt
    simp [fetchLoop, hs, hlt]
  · intro hs hge
    simp [fetchLoop, hs, Nat.not_lt.mpr hge]
  · intro hs h2xx h206
    simp only [fetchLoop, if_neg hs, if_pos (And.intro h2xx h206)]

/-- C3 amended, witnessed: a 429 (reported, one 1-second delay, retried)
followed by a 404 (immediate typed failure, nothing reported). -/
theorem c3_fetch_status_handling_witness :
    fetchLoop 3 0 [.response 429 [], .response 404 []]
      = ⟨.error (.httpError 404 "WARC fetch failed: 404"), [.error 429], [1], 2⟩ := by
  have h1 := (c3_fetch_status_handling 3 0 429 [] [.response 404 []]).1 (Or.inr rfl) (by decide)
  have h3 := (c3_fetch_status_handling 3 1 404 [] []).2.2 (by decide) (by decide) (by decide)
  rw [h1, h3]
  rfl

/-- C4 as stated is false: a 200-range whose bytes lack the CRLF pairs has
already been reported to the limiter as a *success* (`reportSuccess()` runs
before parsing), and the parse `Error` is then retried like a network error.
Concrete run: four unparseable 200 responses produce three backoff delays
and four success reports before the parse error finally surfaces. -/
theorem c4_counterexample :
    RLEvent.success ∈ (fetchLoop 3 0 (List.replicate 4 (.response 200 []))).events ∧
    (fetchLoop 3 0 (List.replicate 4 (.response 200 []))).delaysSec = [1, 2, 4] ∧
    (fetchLoop 3 0 (List.replicate 4 (.response 200 []))).events
      = [.success, .success, .success, .success] ∧
    (fetchLoop 3 0 (List.replicate 4 (.response 200 []))).result
      = .error (.plainError "Invalid WARC record: no WARC header separator found") := by
  refine ⟨by decide, by decide, by decide, rfl⟩

/-- C4 amended: when the decompressed bytes of a 2xx attempt fail to parse,
that attempt has already been reported to the rate limiter as a success, and
the parse error is retried (with the usual `2^attempt`-second delay) while
attempts remain; only once the budget is exhausted does it surface, as a
plain (non-HTTP) parse error. -/
theorem c4_parse_failure_retried (maxRetries attempt status : Nat) (body : List Nat)
    (rest : List AttemptOutcome) (msg : String)
    (hp : parseWarcRecord body = .error msg)
    (hs : 200 ≤ status ∧ status ≤ 299) :
    (attempt < maxRetries →
      fetchLoop maxRetries attempt (.response status body :: rest)
        = ⟨(fetchLoop maxRetries (attempt + 1) rest).result,
           .success :: (fetchLoop maxRetries (attempt + 1) rest).events,
           2 ^ attempt :: (fetchLoop maxRetries (attempt + 1) rest).delaysSec,
           (fetchLoop maxRetries (attempt + 1) rest).attemptsUsed + 1⟩) ∧
    (maxRetries ≤ attempt →
      fetchLoop maxRetries attempt (.response status body :: rest)
        = ⟨.error (.plainError msg), [.success], [], 1⟩) := by
  have hns : ¬ (status = 503 ∨ status = 429) := by omega
  have h2 : ¬ (¬ (200 ≤ status ∧ status ≤ 299) ∧ status ≠ 206) := by
    rintro ⟨hc, -⟩
    exact hc hs
  constructor
  · intro hlt
    simp only [fetchLoop, if_neg hns, if_neg h2, hp, if_pos hlt]
  · intro hge
    simp only [fetchLoop, if_neg hns, if_neg h2, hp, if_neg (Nat.not_lt.mpr hge)]

/-- C4 amended, witnessed at an empty (unparseable) body with the budget
exhausted. -/
theorem c4_parse_failure_retried_witness :
    parseWarcRecord ([] : List Nat)
      = .error "Invalid WARC record: no WARC header separator found" ∧
    fetchLoop 1 1 [.response 200 []]
      = ⟨.error (.plainError "Invalid WARC record: no WARC header separator found"),
         [.success], [], 1⟩ :=
  ⟨rfl,
   (c4_parse_failure_retried 1 1 200 [] [] _ rfl (by decide)).2 (by decide)⟩

/-!
`processRecord` (`src/packages/scraper/scraper.ts`).  `crypto.subtle.digest`
is an external collaborator, so the SHA-256 digest is a function parameter;
`computeHash` renders each digest byte with `toString(16).padStart(2, "0")`
(exact for byte values < 256, which a digest always satisfies).
`extractFilename` (URL percent-decoding) is likewise passed in.  Each
fallible awaited effect of one `processRecord` call is one `Except` field of
`ProcEnv`; an `Except.error` models that call throwing.  The result records
the counter deltas, the row upserts that completed, and the exception (if
any) escaping `processRecord` — exactly what the enclosing worker taskode
would reject with, since the task body adds no further catch.
-/

def hexDigitChar (n : Nat) : Char := if n < 10 then Char.ofNat (48 + n) else Char.ofNat (87 + n)

/-- Source: `b.toString(16).padStart(2, "0")` for a byte value. -/
def byteToHex (b : Nat) : List Char := [hexDigitChar (b / 16), hexDigitChar (b % 16)]

/-- Source: `computeHash`: lowercase-hex rendering of the digest of `data`. -/
def computeHash (digest : List Nat → List Nat) (data : List Nat) : String :=
  ⟨((digest data).map byteToHex).flatten⟩

/-- The document metadata row as upserted by the scraper (timestamp values
come from `Date.now()`, so only their presence is modelled). -/
structure DocRow where
  id : String
  source_url : List Nat
  crawl_id : String
  original_filename : String
  file_size_bytes : Option Nat := none
  status : String
  error_message : Option String := none
  is_valid_docx : Option Bool := none
  has_downloaded_at : Bool := false
  has_uploaded_at : Bool := false
deriving Repr, DecidableEq

/-- Source: `existingByHash && existingByHash.status === "uploaded"`. -/
def isUploadedRow : Option DocRow → Bool
  | some r => r.status == "uploaded"
  | none => false

/-- Outcomes of the awaited effects of one `processRecord` call, in program
order: the `fetchWarcRecord` call, the upsert in its catch handler, the
invalid-payload upsert, `db.getDocument(hash)`, `storage.writeIfNotExists`,
and the final uploaded-row upsert. -/
structure ProcEnv where
  fetchResult : Except String WarcParsed
  failUpsert : Except String Unit
  invalidUpsert : Except String Unit
  getDocument : Except String (Option DocRow)
  writeIfNotExists : Except String Bool
  finalUpsert : Except String Unit

/-- Counter deltas, completed upserts, and the escaping exception of one
`processRecord` call. -/
structure ProcResult where
  saved : Nat
  skipped : Nat
  failed : Nat
  upserts : List DocRow
  escaped : Option String
deriving Repr, DecidableEq

/-- Source: `processRecord`: skip by URL set; fetch (its exception caught and turned
into a `failed-…` row); validate (invalid payload turned into a
hash-identified failed row); hash-dedup check; `writeIfNotExists`;
uploaded-row upsert.  Only the fetch step sits in a `try`; any other
throwing effect escapes. -/
def processRecord (digest : List Nat → List Nat) (extractFilename : List Nat → String)
    (force urlUploaded : Bool) (url : List Nat) (crawlId : String) (env : ProcEnv) :
    ProcResult :=
  if !force && urlUploaded then ⟨0, 1, 0, [], none⟩
  else
    match env.fetchResult with
    | .error errMsg =>
      let row : DocRow :=
        { id := "failed-" ++ computeHash digest url, source_url := url,
          crawl_id := crawlId, original_filename := extractFilename url,
          status := "failed", error_message := some errMsg }
      match env.failUpsert with
      | .ok _ => ⟨0, 0, 1, [row], none⟩
      | .error e => ⟨0, 0, 1, [], some e⟩
    | .ok result =>
      let validation := validateDocx result.content
      if !validation.isValid then
        let row : DocRow :=
          { id := computeHash digest result.content, source_url := url,
            crawl_id := crawlId, original_filename := extractFilename url,
            file_size_bytes := some result.contentLength,
            status := "failed", error_message := validation.error, is_valid_docx := some false }
        match env.invalidUpsert with
        | .ok _ => ⟨0, 0, 1, [row], none⟩
        | .error e => ⟨0, 0, 1, [], some e⟩
      else
        match env.getDocument with
        | .error e => ⟨0, 0, 0, [], some e⟩
        | .ok existingByHash =>
          if isUploadedRow existingByHash then ⟨0, 1, 0, [], none⟩
          else
            match env.writeIfNotExists with
            | .error e => ⟨0, 0, 0, [], some e⟩
            | .ok isNew =>
              match env.finalUpsert with
              | .ok _ =>
                ⟨if isNew then 1 else 0, if isNew then 0 else 1, 0,
                 [{ id := computeHash digest result.content, source_url := url,
                    crawl_id := crawlId, original_filename := extractFilename url,
                    file_size_bytes := some result.contentLength,
                    status := "uploaded", is_valid_docx := some true,
                    has_downloaded_at := true, has_uploaded_at := true }], none⟩
              | .error e => ⟨if isNew then 1 else 0, if isNew then 0 else 1, 0, [], some e⟩

/-- A minimal payload passing `validateDocx`: ZIP magic, both marker
substrings, zero-padded to 100 bytes. -/
def sampleDocx : List Nat := ZIP_MAGIC ++ ctNeedle ++ wordDocXmlNeedle ++ List.replicate 60 0

/-- C2 as stated is false: only the fetch step is inside a `try`.  A
`storage.writeIfNotExists` rejection on a fetched, valid payload escapes
`processRecord` — and hence the worker task, whose body adds no catch — so
the failure is not converted into a row update or counter increment. -/
theorem c2_counterexample :
    (processRecord (fun _ => List.replicate 32 0) (fun _ => "unknown.docx") false false
      (asciiBytes "http://example.com/a.docx") "CC-MAIN-2024-10"
      ⟨.ok ⟨sampleDocx, 200, [], 100⟩, .ok (), .ok (), .ok none,
       .error "blob write failed", .ok ()⟩).escaped = some "blob write failed" ∧
    (processRecord (fun _ => List.replicate 32 0) (fun _ => "unknown.docx") false false
      (asciiBytes "http://example.com/a.docx") "CC-MAIN-2024-10"
      ⟨.ok ⟨sampleDocx, 200, [], 100⟩, .ok (), .ok (), .ok none,
       .error "blob write failed", .ok ()⟩).upserts = [] := by
  refine ⟨rfl, rfl⟩

/-- C2 amended: a fetch failure is caught and becomes a `failed-…` row
upsert plus a `failed` counter increment with nothing escaping; and when
every other awaited effect succeeds, nothing escapes either.  (But an error
thrown by the blob write or a metadata upsert does escape the worker task,
aborting the pool through `Promise.race`/`Promise.all` — see the
counterexample.) -/
theorem c2_fetch_errors_contained (digest : List Nat → List Nat)
    (extractFilename : List Nat → String) (force urlUploaded : Bool)
    (url : List Nat) (crawlId : String) (env : ProcEnv)
    (hnoskip : (!force && urlUploaded) = false) :
    (∀ msg, env.fetchResult = .error msg → env.failUpsert = .ok () →
      processRecord digest extractFilename force urlUploaded url crawlId env
        = ⟨0, 0, 1,
           [{ id := "failed-" ++ computeHash digest url, source_url := url,
              crawl_id := crawlId, original_filename := extractFilename url,
              status := "failed", error_message := some msg }], none⟩) ∧
    (∀ r o b, env.fetchResult = .ok r → env.failUpsert = .ok () →
      env.invalidUpsert = .ok () → env.getDocument = .ok o →
      env.writeIfNotExists = .ok b → env.finalUpsert = .ok () →
      (processRecord digest extractFilename force urlUploaded url crawlId env).escaped
        = none) := by
  constructor
  · intro msg hf hup
    simp only [processRecord, hnoskip, Bool.false_eq_true, if_false, hf, hup]
  · intro r o b hf hfail hinv hget hw hfin
    simp only [processRecord, hnoskip, Bool.false_eq_true, if_false, hf, hfail, hinv, hget,
      hw, hfin]
    by_cases hv : (!(validateDocx r.content).isValid) = true
    · simp [hv]
    · simp only [Bool.not_eq_true] at hv
      simp only [hv, Bool.false_eq_true, if_false]
      by_cases hu : isUploadedRow o = true
      · simp [hu]
      · simp only [Bool.not_eq_true] at hu
        simp [hu]

/-- C2 amended, witnessed: a fetch error with a working upsert produces
exactly the failed row and nothing escapes; and an all-effects-ok run
escapes nothing. -/
theorem c2_fetch_errors_contained_witness :
    (processRecord (fun _ => List.replicate 32 0) (fun _ => "unknown.docx") false false
        [104] "CC-MAIN-2024-10"
        ⟨.error "HTTP 500", .ok (), .ok (), .ok none, .ok true, .ok ()⟩)
      = ⟨0, 0, 1,
         [{ id := "failed-" ++ computeHash (fun _ => List.replicate 32 0) [104],
            source_url := [104], crawl_id := "CC-MAIN-2024-10",
            original_filename := "unknown.docx",
            status := "failed", error_message := some "HTTP 500" }], none⟩ ∧
    (processRecord (fun _ => List.replicate 32 0) (fun _ => "unknown.docx") false false
        [104] "CC-MAIN-2024-10"
        ⟨.ok ⟨sampleDocx, 200, [], 100⟩, .ok (), .ok (), .ok none, .ok true, .ok ()⟩).escaped
      = none := by
  constructor
  · exact (c2_fetch_errors_contained (fun _ => List.replicate 32 0) (fun _ => "unknown.docx")
      false false [104] "CC-MAIN-2024-10"
      ⟨.error "HTTP 500", .ok (), .ok (), .ok none, .ok true, .ok ()⟩ rfl).1
      "HTTP 500" rfl rfl
  · exact (c2_fetch_errors_contained (fun _ => List.replicate 32 0) (fun _ => "unknown.docx")
      false false [104] "CC-MAIN-2024-10"
      ⟨.ok ⟨sampleDocx, 200, [], 100⟩, .ok (), .ok (), .ok none, .ok true, .ok ()⟩ rfl).2
      ⟨sampleDocx, 200, [], 100⟩ none true rfl rfl rfl rfl rfl rfl

/-- The sixteen lowercase hex characters. -/
def hexChars : List Char := "0123456789abcdef".data

lemma flatten_byteToHex_length (ds : List Nat) :
    ((ds.map byteToHex).flatten).length = 2 * ds.length := by
  induction ds with
  | nil => rfl
  | cons b ds ih =>
    simp only [List.map_cons, List.flatten_cons, List.length_append, ih, byteToHex]
    simp
    omega

lemma hexDigitChar_mem (n : Nat) (h : n < 16) : hexDigitChar n ∈ hexChars := by
  revert h
  revert n
  decide

lemma computeHash_hex (digest : List Nat → List Nat) (data : List Nat)
    (hlen : (digest data).length = 32) (hb : ∀ b ∈ digest data, b < 256) :
    (computeHash digest data).length = 64 ∧
    ∀ c ∈ (computeHash digest data).data, c ∈ hexChars := by
  constructor
  · show (((digest data).map byteToHex).flatten).length = 64
    rw [flatten_byteToHex_length, hlen]
  · intro c hc
    have hc' : c ∈ ((digest data).map byteToHex).flatten := hc
    rw [List.mem_flatten] at hc'
    rcases hc' with ⟨l, hl, hcl⟩
    rw [List.mem_map] at hl
    rcases hl with ⟨b, hbmem, rfl⟩
    have hb' : b < 256 := hb b hbmem
    simp only [byteToHex, List.mem_cons, List.not_mem_nil, or_false] at hcl
    rcases hcl with h | h
    · subst h
      exact hexDigitChar_mem _ (by omega)
    · subst h
      exact hexDigitChar_mem _ (by omega)

/-- C7: a record whose fetch fails with no payload gets the deterministic
sentinel id `"failed-" ++ hex(sha256(url-bytes))` with status `failed` and
the error message recorded; a fetched payload failing validation gets the id
`hex(sha256(payload))` with status `failed` and `is_valid_docx = false`; and
the hex rendering of a 32-byte digest is 64 lowercase hex characters. -/
theorem c7_row_identities (digest : List Nat → List Nat)
    (extractFilename : List Nat → String) (url : List Nat) (crawlId : String) (env : ProcEnv)
    (hdlen : ∀ d, (digest d).length = 32) (hdbyte : ∀ d, ∀ b ∈ digest d, b < 256) :
    (∀ msg, env.fetchResult = .error msg → env.failUpsert = .ok () →
      (processRecord digest extractFilename false false url crawlId env).upserts
        = [{ id := "failed-" ++ computeHash digest url, source_url := url,
             crawl_id := crawlId, original_filename := extractFilename url,
             status := "failed", error_message := some msg }] ∧
      (processRecord digest extractFilename false false url crawlId env).failed = 1) ∧
    (∀ r, env.fetchResult = .ok r → (validateDocx r.content).isValid = false →
      env.invalidUpsert = .ok () →
      (processRecord digest extractFilename false false url crawlId env).upserts
        = [{ id := computeHash digest r.content, source_url := url,
             crawl_id := crawlId, original_filename := extractFilename url,
             file_size_bytes := some r.contentLength,
             status := "failed", error_message := (validateDocx r.content).error,
             is_valid_docx := some false }] ∧
      (processRecord digest extractFilename false false url crawlId env).failed = 1) ∧
    (∀ d, (computeHash digest d).length = 64 ∧
      ∀ c ∈ (computeHash digest d).data, c ∈ hexChars) := by
  refine ⟨?_, ?_, fun d => computeHash_hex digest d (hdlen d) (hdbyte d)⟩
  · intro msg hf hup
    constructor <;> simp only [processRecord, Bool.not_false, Bool.true_and, hf, hup] <;> rfl
  · intro r hf hv hup
    constructor <;>
      simp only [processRecord, Bool.not_false, Bool.true_and, hf, hv, hup, Bool.not_false,
        if_true] <;> rfl

/-- C7, witnessed at the identity-ish digest `range 32` on a fetch-failed
record and an invalid (empty) payload. -/
theorem c7_row_identities_witness :
    (processRecord (fun _ => List.range 32) (fun _ => "unknown.docx") false false
        [104] "CC-MAIN-2024-10"
        ⟨.error "fetch timeout", .ok (), .ok (), .ok none, .ok true, .ok ()⟩).upserts
      = [{ id := "failed-" ++ computeHash (fun _ => List.range 32) [104],
           source_url := [104], crawl_id := "CC-MAIN-2024-10",
           original_filename := "unknown.docx",
           status := "failed", error_message := some "fetch timeout" }] ∧
    (processRecord (fun _ => List.range 32) (fun _ => "unknown.docx") false false
        [104] "CC-MAIN-2024-10"
        ⟨.ok ⟨[], 200, [], 0⟩, .ok (), .ok (), .ok none, .ok true, .ok ()⟩).upserts
      = [{ id := computeHash (fun _ => List.range 32) [],
           source_url := [104], crawl_id := "CC-MAIN-2024-10",
           original_filename := "unknown.docx", file_size_bytes := some 0,
           status := "failed", error_message := some "File too small to be valid docx",
           is_valid_docx := some false }] ∧
    (computeHash (fun _ => List.range 32) [104]).length = 64 := by
  have hdlen : ∀ d : List Nat, ((fun _ => List.range 32) d).length = 32 := by
    intro d
    simp
  have hdbyte : ∀ d : List Nat, ∀ b ∈ (fun _ => List.range 32) d, b < 256 := by
    intro d b hb
    simp only [List.mem_range] at hb
    omega
  refine ⟨?_, ?_, ?_⟩
  · exact ((c7_row_identities (fun _ => List.range 32) (fun _ => "unknown.docx") [104]
      "CC-MAIN-2024-10" ⟨.error "fetch timeout", .ok (), .ok (), .ok none, .ok true, .ok ()⟩
      hdlen hdbyte).1 "fetch timeout" rfl rfl).1
  · have h := ((c7_row_identities (fun _ => List.range 32) (fun _ => "unknown.docx") [104]
      "CC-MAIN-2024-10" ⟨.ok ⟨[], 200, [], 0⟩, .ok (), .ok (), .ok none, .ok true, .ok ()⟩
      hdlen hdbyte).2.1 ⟨[], 200, [], 0⟩ rfl rfl rfl).1
    rw [h]
    rfl
  · exact ((c7_row_identities (fun _ => List.range 32) (fun _ => "unknown.docx") [104]
      "CC-MAIN-2024-10" ⟨.error "fetch timeout", .ok (), .ok (), .ok none, .ok true, .ok ()⟩
      hdlen hdbyte).2.2 [104]).1

/-!
Extract worker (`processWorker` in `src/packages/extractor/processor.ts`).
One document's pipeline is: `storage.read`, temp-file write, the subprocess
`extract` raced against a 30-second `setTimeout`, two output-store writes,
and a metadata upsert — only the `extract` promise is inside the race.  Step
durations are rationals (seconds); each step's outcome is a field of
`DocEffects`.  The catch handler restarts the subprocess exactly when the
error message contains `"timed out"` and then records
`extraction_error`. -/

structure ExtractResponse where
  success : Bool
  text : String := ""
  wordCount : Nat := 0
  charCount : Nat := 0
  tableCount : Nat := 0
  imageCount : Nat := 0
  error : String := ""
deriving Repr, DecidableEq

structure DocEffects where
  readResult : Except String (Option (List Nat))
  readSec : ℚ
  tempWriteSec : ℚ
  extractResult : ExtractResponse
  extractSec : ℚ
  storeSec : ℚ
  upsertSec : ℚ

/-- What one loop iteration of `processWorker` did to the document: whether
`updateExtraction` ran, the `updateExtractionError` message (if any),
whether the subprocess was killed and respawned, and the wall-clock time the
iteration consumed. -/
structure DocOutcome where
  extracted : Bool
  errorRow : Option String
  restarted : Bool
  totalSec : ℚ
deriving Repr

/-- Source: `s.includes(sub)` on strings. -/
def includesStr (s sub : String) : Bool := decide (sub.data <:+: s.data)

/-- One iteration of `processWorker`'s loop.  The `Promise.race` starts the
30-second timer after the download and temp write; the timeout fires only
when the `extract` call itself takes at least 30 s.  `result.error ||
"Extraction failed"` and the `error.includes("timed out")`-guarded restart
follow the source. -/
def processOneDoc (eff : DocEffects) : DocOutcome :=
  match eff.readResult with
  | .error msg =>
    ⟨false, some msg, includesStr msg "timed out", eff.readSec⟩
  | .ok none =>
    ⟨false, some "File not found", includesStr "File not found" "timed out", eff.readSec⟩
  | .ok (some _) =>
    if eff.extractSec < 30 then
      if eff.extractResult.success then
        ⟨true, none, false,
         eff.readSec + eff.tempWriteSec + eff.extractSec + eff.storeSec + eff.upsertSec⟩
      else
        let msg := if eff.extractResult.error = "" then "Extraction failed"
          else eff.extractResult.error
        ⟨false, some msg, includesStr msg "timed out",
         eff.readSec + eff.tempWriteSec + eff.extractSec⟩
    else
      ⟨false, some "Extraction timed out after 30s", true,
       eff.readSec + eff.tempWriteSec + 30⟩

/-- C9 as stated is false: the 30-second deadline covers only the subprocess
extraction step.  A pipeline whose blob download alone takes 1000 s (with a
1-second extraction) completes successfully — total time far beyond 30 s,
yet no timeout fires, no `extraction_error` is written and the subprocess is
not restarted. -/
theorem c9_counterexample :
    30 < (processOneDoc ⟨.ok (some [1]), 1000, 0, ⟨true, "", 5, 5, 0, 0, ""⟩, 1, 0, 0⟩).totalSec ∧
    (processOneDoc ⟨.ok (some [1]), 1000, 0, ⟨true, "", 5, 5, 0, 0, ""⟩, 1, 0, 0⟩).errorRow
      = none ∧
    (processOneDoc ⟨.ok (some [1]), 1000, 0, ⟨true, "", 5, 5, 0, 0, ""⟩, 1, 0, 0⟩).restarted
      = false ∧
    (processOneDoc ⟨.ok (some [1]), 1000, 0, ⟨true, "", 5, 5, 0, 0, ""⟩, 1, 0, 0⟩).extracted
      = true := by
  refine ⟨?_, ?_, ?_, ?_⟩ <;> norm_num [processOneDoc]

/-- C9 amended: only the subprocess extraction step is raced against the
30-second timer (which starts after the download and the temp-file write).
When the extraction step takes ≥ 30 s the worker records an
`extraction_error` containing "timed out" and kills-and-respawns its
subprocess before taking the next document; when it finishes within the
deadline and succeeds, the document completes regardless of how long the
other steps took. -/
theorem c9_extract_timeout_scope (eff : DocEffects) (content : List Nat)
    (hread : eff.readResult = .ok (some content)) :
    (30 ≤ eff.extractSec →
      processOneDoc eff = ⟨false, some "Extraction timed out after 30s", true,
        eff.readSec + eff.tempWriteSec + 30⟩ ∧
      includesStr "Extraction timed out after 30s" "timed out" = true) ∧
    (eff.extractSec < 30 → eff.extractResult.success = true →
      processOneDoc eff = ⟨true, none, false,
        eff.readSec + eff.tempWriteSec + eff.extractSec + eff.storeSec + eff.upsertSec⟩) := by
  constructor
  · intro hge
    refine ⟨?_, by decide⟩
    unfold processOneDoc
    rw [hread]
    rw [if_neg (by linarith)]
  · intro hlt hsucc
    unfold processOneDoc
    rw [hread]
    rw [if_pos hlt, if_pos hsucc]

/-- C9 amended, witnessed at a 31-second extraction (timeout path) and a
1-second extraction with a 100-second download (success path). -/
theorem c9_extract_timeout_scope_witness :
    processOneDoc ⟨.ok (some [1]), 0, 0, ⟨true, "", 0, 0, 0, 0, ""⟩, 31, 0, 0⟩
      = ⟨false, some "Extraction timed out after 30s", true, 0 + 0 + 30⟩ ∧
    processOneDoc ⟨.ok (some [1]), 100, 0, ⟨true, "", 0, 0, 0, 0, ""⟩, 1, 0, 0⟩
      = ⟨true, none, false, 100 + 0 + 1 + 0 + 0⟩ := by
  constructor
  · exact ((c9_extract_timeout_scope
      ⟨.ok (some [1]), 0, 0, ⟨true, "", 0, 0, 0, 0, ""⟩, 31, 0, 0⟩ [1] rfl).1
      (by norm_num)).1
  · exact (c9_extract_timeout_scope
      ⟨.ok (some [1]), 100, 0, ⟨true, "", 0, 0, 0, 0, ""⟩, 1, 0, 0⟩ [1] rfl).2
      (by norm_num) rfl

/-!
`AsyncQueue` (`src/utils/async-queue.ts`).  API calls are modelled as atomic
events on the queue state — each method runs synchronously up to its
suspension point on the JavaScript event loop.  `pop` calls carry an id so
that deliveries (resolutions of a pop with an item or the null sentinel) can
be logged.  Pushes are modelled for traces that never fill the buffer (the
`while` loop at the head of `push` is skipped when `items.length < maxSize`;
the behaviour at issue is independent of backpressure, and no pusher ever
suspends in such traces, so `waitingPushers` stays empty and `pop`'s
`waitingPushers.shift()?.()` is a no-op). -/

inductive QOp
  | push (item : Nat)
  | pop (id : Nat)
  | close
deriving Repr, DecidableEq

structure QState where
  items : List Nat
  waitingPoppers : List Nat
  closed : Bool
  deliveries : List (Nat × Option Nat)
  pushReturns : List Bool
deriving Repr, DecidableEq

def qInit : QState := ⟨[], [], false, [], []⟩

/-- One API call: `push` returns false when closed, else appends the item to
`items` AND resolves the first waiting popper with it; `pop` takes a
buffered item if any, else resolves null when closed, else suspends; `close`
resolves every waiting popper with null. -/
def qStep (s : QState) : QOp → QState
  | .push item =>
    if s.closed then { s with pushReturns := s.pushReturns ++ [false] }
    else
      match s.waitingPoppers with
      | [] =>
        { s with items := s.items ++ [item], pushReturns := s.pushReturns ++ [true] }
      | p :: rest =>
        { s with
          items := s.items ++ [item]
          waitingPoppers := rest
          deliveries := s.deliveries ++ [(p, some item)]
          pushReturns := s.pushReturns ++ [true] }
  | .pop id =>
    match s.items with
    | item :: restItems =>
      { s with items := restItems, deliveries := s.deliveries ++ [(id, some item)] }
    | [] =>
      if s.closed then { s with deliveries := s.deliveries ++ [(id, none)] }
      else { s with waitingPoppers := s.waitingPoppers ++ [id] }
  | .close =>
    { s with
      closed := true
      waitingPoppers := []
      deliveries := s.deliveries ++ s.waitingPoppers.map (fun p => (p, none)) }

def qRun (ops : List QOp) : QState := ops.foldl qStep qInit

/-- C10: the queue delivers one pushed item twice.  `push` appends the item
to the buffer and *also* resolves a waiting popper with it, so the trace
`pop 0; push 7; pop 1` hands the single pushed `7` to both pop calls —
`pop 0` via its resolver and `pop 1` from the still-buffered copy.  (The
close clauses behave as claimed; the at-most-once clause is what fails.) -/
theorem c10_double_delivery :
    (qRun [.pop 0, .push 7, .pop 1]).deliveries = [(0, some 7), (1, some 7)] ∧
    ((qRun [.pop 0, .push 7, .pop 1]).deliveries.filter (fun d => d.2 = some 7)).length = 2 ∧
    (([.pop 0, .push 7, .pop 1] : List QOp).filter (fun op => op = .push 7)).length = 1 ∧
    (qRun [.push 5, .pop 0, .close, .pop 1]).deliveries = [(0, some 5), (1, none)] ∧
    (qRun [.pop 0, .pop 1, .close]).deliveries = [(0, none), (1, none)] := by
  refine ⟨?_, ?_, ?_, ?_, ?_⟩ <;> decide

end DocxCorpus
